import Mathlib

/-!
Verification of the raindrop-io-api-client Go library
(`src/pkg/raindrop/client.go`) against its natural-language specification.

The Go code is shallowly embedded: pure request-construction and
response-parsing logic becomes Lean functions; Go pointer aliasing is made
explicit by returning the updated state; a Go `panic` is modelled as a
distinguished outcome constructor (it is not a returned error value).
External collaborators (the HTTP transport, `json.Unmarshal` into an
arbitrary target type, the HTML title extractor) are parameters of the
embedded functions, exactly as they are opaque call-outs in the source.
-/

namespace Raindrop

/-! ## Constants (client.go lines 21-39) -/

def apiHost : String := "https://api.raindrop.io"

def authHost : String := "https://raindrop.io"

def endpointAuthorize : String := "/oauth/authorize"

def endpointAccessToken : String := "/oauth/access_token"

def endpointGetRootCollections : String := "/rest/v1/collections"

def endpointGetChildCollections : String := "/rest/v1/collections/childrens"

def endpointGetCollection : String := "/rest/v1/collection/"

def endpointCreateCollection : String := "/rest/v1/collection"

def endpointRaindrop : String := "/rest/v1/raindrop"

def endpointRaindrops : String := "/rest/v1/raindrops/"

def endpointTags : String := "/rest/v1/tags"

/-! ## Go `path` package

`path.Clean` and `path.Join` from the Go standard library, used by every
request-building method of the client.  `pathClean` is the standard
segment-stack formulation of the Go lazybuf algorithm: empty and `.` segments
are dropped, `..` pops a previous segment (or is kept when the path is not
rooted and there is nothing to pop; it is dropped at the root). -/

/-- Splitting a character list at `/`: the effect of `strings.Split`
with separator `/`, on the character level. -/
def splitOnSlash : List Char → List (List Char)
  | [] => [[]]
  | c :: rest =>
    if c = '/' then [] :: splitOnSlash rest
    else
      match splitOnSlash rest with
      | [] => [[c]]
      | g :: gs => (c :: g) :: gs

/-- One segment of the Clean loop: drop empty and `.` segments, let `..`
pop the previous segment when there is one to pop (`..` is kept when the
path is not rooted and nothing can be popped, and dropped at the root). -/
def pathCleanStep (rooted : Bool) (acc : List (List Char)) (seg : List Char) : List (List Char) :=
  if seg = [] ∨ seg = ['.'] then acc
  else if seg = ['.', '.'] then
    match acc with
    | [] => if rooted then [] else [seg]
    | last :: rest => if last = ['.', '.'] then seg :: acc else rest
  else seg :: acc

/-- Joining segments with `/`. -/
def joinSlash : List (List Char) → List Char
  | [] => []
  | [g] => g
  | g :: gs => g ++ '/' :: joinSlash gs

def pathClean (p : String) : String :=
  match p.data with
  | [] => "."
  | c :: rest =>
    let rooted := c = '/'
    let segs := ((splitOnSlash (c :: rest)).foldl (pathCleanStep rooted) []).reverse
    let joined := joinSlash segs
    if rooted then String.mk ('/' :: joined)
    else if joined = [] then "." else String.mk joined

def pathJoin (elems : List String) : String :=
  match elems.dropWhile (fun e => e = "") with
  | [] => ""
  | rest => pathClean (String.intercalate "/" rest)

/-! ## URLs and the client record (client.go lines 41-50, 194-223)

`url.Parse` of the two fixed hosts yields a scheme, a host and an empty
path; only those parts of the Go `url.URL` are ever consulted by the client,
so the embedded `URL` carries exactly them.  In the Go struct `authURL`
and `apiURL` are *pointers* to `url.URL`; aliasing through those pointers
is modelled explicitly where it occurs (`GetAuthorizationURL`). -/

structure URL where
  scheme : String
  host : String
  path : String
deriving Repr, DecidableEq

/-- The configuration part of the Go `Client` struct (client.go lines
42-50): the two stored base URLs and the three credential strings.  The
`httpClient` field is the transport collaborator and carries no
configuration of this library; the exported `ClientCode` field is a
scratch cell written by `GetAuthorizationCodeHandler` and is not part of
the configuration. -/
structure Client where
  apiURL : URL
  authURL : URL
  clientId : String
  clientSecret : String
  redirectUri : String
deriving Repr, DecidableEq

/-- `NewClient` (client.go lines 194-223): parses the two fixed hosts and
stores the three caller-supplied configuration strings.  The parses of the
constant hosts always succeed, so the embedded constructor is total. -/
def NewClient (clientId clientSecret redirectUri : String) : Client :=
  ⟨⟨"https", "api.raindrop.io", ""⟩, ⟨"https", "raindrop.io", ""⟩,
    clientId, clientSecret, redirectUri⟩

/-! ## JSON values and the encoding of `createCollectionRequest`

A small JSON value type, enough for the bodies this client encodes.  A Go
struct encodes to a field list in declaration order; a field tagged
`omitempty` is dropped when its value is the zero value of its type
(`""`, `0`, `false`, empty slice). -/

inductive Json where
  | str (s : String)
  | num (n : Int)
  | bool (b : Bool)
  | arr (elems : List Json)

/-- `createCollectionRequest` (client.go lines 79-87).  `ParentId` is a Go
`uint32`; its values are 0 ≤ n < 2^32 and no arithmetic is performed on it,
so it is carried as a `Nat`. -/
structure createCollectionRequest where
  View : String
  Title : String
  «Sort» : Int
  Public : Bool
  ParentId : Nat
  Cover : List String

/-- JSON encoding of `createCollectionRequest`: every field carries
`omitempty`, so each is emitted exactly when it differs from the zero value
of its type, in struct declaration order.  The tag of `ParentId` is
`parent.$id`. -/
def encodeCreateCollectionRequest (r : createCollectionRequest) : List (String × Json) :=
  (if r.View = "" then [] else [("view", Json.str r.View)]) ++
  (if r.Title = "" then [] else [("title", Json.str r.Title)]) ++
  (if r.«Sort» = 0 then [] else [("sort", Json.num r.«Sort»)]) ++
  (if r.Public = false then [] else [("public", Json.bool r.Public)]) ++
  (if r.ParentId = 0 then [] else [("parent.$id", Json.num (Int.ofNat r.ParentId))]) ++
  (if r.Cover = [] then [] else [("cover", Json.arr (r.Cover.map Json.str))])

/-- The request body built by `CreateCollection` (client.go lines 305-324):
when `isRoot` the `ParentId` field of the struct literal is left unset, so
it holds the `uint32` zero value; otherwise it is set to the supplied
`parentId`. -/
def createCollectionBody (isRoot : Bool) (view title : String) (sort : Int)
    (public : Bool) (parentId : Nat) (cover : List String) : createCollectionRequest :=
  if isRoot then ⟨view, title, sort, public, 0, cover⟩
  else ⟨view, title, sort, public, parentId, cover⟩

/-! ## Response parsing (client.go lines 644-664)

`parseResponse` first checks the status code (before touching the body):
a code that is neither the expected one nor 400 is returned as a
status-mismatch error and nothing is decoded.  Otherwise the body is read:
a read failure hits `panic(err)` — modelled by the distinguished
`panicked` outcome, which is *not* a returned error — and a read body is
handed to `json.Unmarshal` (the `unmarshal` parameter), whose error or
success is returned as is. -/

structure HTTPResponse where
  statusCode : Nat
  /-- The result of `ioutil.ReadAll` on the body: `none` models a read
  failure, `some body` the successfully read bytes. -/
  bodyRead : Option String
deriving Repr, DecidableEq

inductive ParseResult (α : Type) where
  /-- `fmt.Errorf ("unexpected Status Code: %d", code)` returned to the caller. -/
  | statusError (code : Nat)
  /-- The `panic(err)` on a body-read failure: the function does not return. -/
  | panicked
  /-- The error of `json.Unmarshal` returned to the caller. -/
  | decodeError
  /-- Successful decode: `json.Unmarshal` filled the target and `nil` was returned. -/
  | ok (value : α)
deriving Repr, DecidableEq

def parseResponse {α : Type} (response : HTTPResponse) (expectedStatus : Nat)
    (unmarshal : String → Option α) : ParseResult α :=
  if response.statusCode ≠ expectedStatus ∧ response.statusCode ≠ 400 then
    ParseResult.statusError response.statusCode
  else
    match response.bodyRead with
    | none => ParseResult.panicked
    | some body =>
      match unmarshal body with
      | none => ParseResult.decodeError
      | some v => ParseResult.ok v

/-- `CreateCollectionResponse` (client.go lines 89-95). -/
structure CreateCollectionResponse where
  Result : Bool
  Item : createCollectionRequest
  Error : String
  ErrorMessage : String

/-- `DeleteTagsResponse` (client.go lines 101-103). -/
structure DeleteTagsResponse where
  Result : Bool

/-! ## `DeleteTags` response handling (client.go lines 444-464)

After the transport call, `DeleteTags` decodes into a fresh
`DeleteTagsResponse`, returns the error of `parseResponse` when there is
one, and otherwise returns `nil` — the decoded record, `Result` flag
included, is discarded. -/

inductive GoError where
  | statusMismatch (code : Nat)
  | decodeFailure
deriving Repr, DecidableEq

inductive DeleteTagsReturn where
  /-- `DeleteTags` returned `nil`. -/
  | noError
  /-- `DeleteTags` returned the error of `parseResponse`. -/
  | err (e : GoError)
  /-- The `panic` inside `parseResponse` propagated. -/
  | panicked
deriving Repr, DecidableEq

def DeleteTags (response : HTTPResponse)
    (unmarshal : String → Option DeleteTagsResponse) : DeleteTagsReturn :=
  match parseResponse response 200 unmarshal with
  | ParseResult.ok _ => DeleteTagsReturn.noError
  | ParseResult.statusError c => DeleteTagsReturn.err (GoError.statusMismatch c)
  | ParseResult.decodeError => DeleteTagsReturn.err GoError.decodeFailure
  | ParseResult.panicked => DeleteTagsReturn.panicked

/-! ## `url.QueryUnescape` (Go standard library)

Percent-decoding in query mode: `%` must be followed by two hex digits
(otherwise the unescape fails with an invalid-escape error), `+` decodes
to a space, every other character passes through. -/

def isHexChar (c : Char) : Bool :=
  (Char.ofNat 48 ≤ c ∧ c ≤ Char.ofNat 57) ∨
  (Char.ofNat 97 ≤ c ∧ c ≤ Char.ofNat 102) ∨
  (Char.ofNat 65 ≤ c ∧ c ≤ Char.ofNat 70)

def unhexChar (c : Char) : Nat :=
  if Char.ofNat 48 ≤ c ∧ c ≤ Char.ofNat 57 then c.toNat - 48
  else if Char.ofNat 97 ≤ c ∧ c ≤ Char.ofNat 102 then c.toNat - 97 + 10
  else if Char.ofNat 65 ≤ c ∧ c ≤ Char.ofNat 70 then c.toNat - 65 + 10
  else 0

def queryUnescapeChars : List Char → Option (List Char)
  | [] => some []
  | '%' :: a :: b :: rest =>
    if isHexChar a ∧ isHexChar b then
      (queryUnescapeChars rest).map (fun t => Char.ofNat (16 * unhexChar a + unhexChar b) :: t)
    else none
  | '%' :: _ => none
  | '+' :: rest => (queryUnescapeChars rest).map (fun t => ' ' :: t)
  | c :: rest => (queryUnescapeChars rest).map (fun t => c :: t)

def queryUnescape (s : String) : Option String :=
  (queryUnescapeChars s.data).map (fun cs => String.mk cs)

/-- The `url.URL.String` rendering for the URLs this client builds: the
scheme, the host and the (already joined) path; no query is ever set on
the URL value passed to `newRequest` (the two methods that add query
parameters do so on the returned request afterwards). -/
def URL.render (u : URL) : String := u.scheme ++ "://" ++ u.host ++ u.path

/-! ## `newRequest` (client.go lines 605-642)

The fully joined URL is rendered and percent-decoded once with
`url.QueryUnescape`; failure aborts construction.  A `nil` body yields an
empty buffer; a non-nil body is passed through `json.NewEncoder(..).Encode`,
which appends a newline to the encoding and whose failure aborts
construction.  The header `Content-Type: application/json` is always
added; `Authorization: Bearer <token>` is added exactly when the supplied
token is non-empty.  The branch on a nil context picks
`http.NewRequestWithContext` versus `http.NewRequest`, which build the same
request object; the method/URL validation inside those constructors is not
reached with the fixed methods this client passes, so the embedding does
not repeat it. -/

/-- The `body interface\x7b\x7d` argument of `newRequest`, as it behaves under
`json.NewEncoder(&b).Encode(body)`: Go `nil`, a value with the given JSON
encoding, or a value whose encoding fails. -/
inductive BodyArg where
  | nil
  | encodes (json : String)
  | failsToEncode
deriving Repr, DecidableEq

structure Request where
  method : String
  url : String
  body : String
  headers : List (String × String)
deriving Repr, DecidableEq

def newRequest (accessToken httpMethod : String) (fullUrl : URL)
    (body : BodyArg) : Option Request :=
  match queryUnescape (URL.render fullUrl) with
  | none => none
  | some u =>
    match body with
    | BodyArg.failsToEncode => none
    | BodyArg.nil =>
      some ⟨httpMethod, u, "",
        if accessToken ≠ "" then
          [("Content-Type", "application/json"),
           ("Authorization", "Bearer " ++ accessToken)]
        else [("Content-Type", "application/json")]⟩
    | BodyArg.encodes enc =>
      some ⟨httpMethod, u, enc ++ "\n",
        if accessToken ≠ "" then
          [("Content-Type", "application/json"),
           ("Authorization", "Bearer " ++ accessToken)]
        else [("Content-Type", "application/json")]⟩

/-! ## `GetAuthorizationURL` (client.go lines 496-502)

The method copies the *pointer* `c.authURL` into `u` (every other method
copies the pointed-to value with `*c.apiURL`), so the assignment
`u.Path = path.Join(uri)` writes through the pointer into the URL stored
in the client.  The embedding therefore returns both the URL value `*u`
and the client as it stands after the call. -/

/-- `authorizeUri` (client.go line 26) instantiated by `fmt.Sprintf`
(client.go line 499). -/
def authorizeUri (clientId redirectUri : String) : String :=
  endpointAuthorize ++ "?client_id=" ++ clientId ++ "&redirect_uri=" ++ redirectUri

def GetAuthorizationURL (c : Client) : URL × Client :=
  let uri := authorizeUri c.clientId c.redirectUri
  let u : URL := ⟨c.authURL.scheme, c.authURL.host, pathJoin [uri]⟩
  (u, ⟨c.apiURL, u, c.clientId, c.clientSecret, c.redirectUri⟩)

/-! ## `GetAuthorizationCode` (client.go lines 589-599) -/

structure RedirectRequest where
  /-- `r.URL.Query().Get("code")`: the first value of the `code` query
  parameter, or the empty string when the parameter is absent. -/
  queryCode : String
  /-- `r.URL.Query().Get("error")`, likewise. -/
  queryError : String
  /-- `r.Response`, reduced to its status code.  Go populates `Response`
  only on a request created by an HTTP client following a redirect; on a
  request received by a server handler — the way
  `GetAuthorizationCodeHandler` calls this function — it is `nil`,
  modelled as `none`. -/
  response : Option Nat
deriving Repr, DecidableEq

inductive AuthCodeResult where
  | ok (code : String)
  | err (msg : String)
  /-- Dereferencing `r.Response.StatusCode` with `r.Response = nil`. -/
  | panicked
deriving Repr, DecidableEq

def GetAuthorizationCode (r : RedirectRequest) : AuthCodeResult :=
  if r.queryCode = "" ∧ r.queryError ≠ "" then
    AuthCodeResult.err ("Can\x27t get authorization code: " ++ r.queryError)
  else if r.queryCode = "" then
    match r.response with
    | none => AuthCodeResult.panicked
    | some status => AuthCodeResult.err ("Can\x27t get authorization code: " ++ toString status)
  else
    AuthCodeResult.ok r.queryCode

/-! ## Title scrape in `CreateSimpleRaindrop` (client.go lines 347-370)

`resp, _ := http.Get(link)` discards the error of the GET; when the GET
fails, `resp` is `nil` and the immediately following `resp.Body`
(line 353 in the deferred close, line 360 in the `GetHtmlTitle` call)
dereferences a nil pointer and panics.  When the GET succeeds, the body is
handed to the external `GetHtmlTitle` collaborator (a parameter here): an
extracted title is used as is, and an absence signal is replaced by the
fixed placeholder string.  The resulting title is then placed in the
bookmark record that the method POSTs. -/

inductive TitleScrape where
  /-- The nil-pointer dereference of `resp.Body` after a failed GET. -/
  | panicked
  /-- The title placed into the POSTed bookmark record. -/
  | titled (t : String)
deriving Repr, DecidableEq

def simpleRaindropTitle {β : Type} (getResponseBody : Option β)
    (getHtmlTitle : β → Option String) : TitleScrape :=
  match getResponseBody with
  | none => TitleScrape.panicked
  | some respBody =>
    match getHtmlTitle respBody with
    | some val => TitleScrape.titled val
    | none => TitleScrape.titled "Fail to get HTML title"

/-! ## `GetTaggedRaindrops` (client.go lines 470-494, 601-603)

The request path is `path.Join(c.apiURL.Path, endpointRaindrops + "0")`
and the only query parameter added is
`search = createSingleSearchParameter("tag", tag)`. -/

/-- `createSingleSearchParameter` (client.go lines 601-603):
`fmt.Sprintf` of the two strings into the fixed bracket template. -/
def createSingleSearchParameter (k v : String) : String :=
  "[\x7b\"key\":\"" ++ k ++ "\",\"val\":\"" ++ v ++ "\"\x7d]"

/-- The path and query-parameter list of the request built by
`GetTaggedRaindrops`. -/
def GetTaggedRaindropsRequest (c : Client) (tag : String) :
    String × List (String × String) :=
  (pathJoin [c.apiURL.path, endpointRaindrops ++ "0"],
   [("search", createSingleSearchParameter "tag" tag)])

/-! ## Helper lemmas -/

theorem lookup_cons_keyNe {β : Type} (k k2 : String) (v : β) (l : List (String × β))
    (h : ¬ k = k2) : List.lookup k ((k2, v) :: l) = List.lookup k l := by
  have hb : (k == k2) = false := beq_eq_false_iff_ne.mpr h
  simp [List.lookup, hb]

/-! ## Theorems for the claims -/

/-- Claim C1, counterexample: with `isRoot = false` and the supplied
`parentId = 0`, the encoded `CreateCollection` body carries no
`parent.$id` field at all — contradicting the claim that a non-root
creation always includes the parent-identifier field, including when the
value is zero. -/
theorem createCollection_parentZero_counterexample :
    List.lookup "parent.$id"
      (encodeCreateCollectionRequest
        (createCollectionBody false "list" "Recipes" 1 true 0 ["cover.png"])) = none := by
  rfl

/-- Claim C1, amended: the encoded `CreateCollection` body carries the
`parent.$id` field exactly when `isRoot` is false *and* the supplied
`parentId` is non-zero, in which case its value is the supplied one; for a
root collection, and also for a non-root collection whose `parentId` is
zero, the field is omitted (the `omitempty` tag drops the `uint32` zero). -/
theorem createCollection_parent_field (isRoot : Bool) (view title : String)
    (sort : Int) (public : Bool) (parentId : Nat) (cover : List String) :
    List.lookup "parent.$id"
      (encodeCreateCollectionRequest
        (createCollectionBody isRoot view title sort public parentId cover)) =
      if isRoot = false ∧ parentId ≠ 0 then some (Json.num (Int.ofNat parentId))
      else none := by
  cases isRoot with
  | true =>
    show List.lookup "parent.$id"
        (encodeCreateCollectionRequest ⟨view, title, sort, public, 0, cover⟩) =
      if true = false ∧ parentId ≠ 0 then some (Json.num (Int.ofNat parentId)) else none
    rw [if_neg (by simp)]
    unfold encodeCreateCollectionRequest
    split_ifs <;> first | rfl | simp_all
  | false =>
    show List.lookup "parent.$id"
        (encodeCreateCollectionRequest ⟨view, title, sort, public, parentId, cover⟩) =
      if false = false ∧ parentId ≠ 0 then some (Json.num (Int.ofNat parentId)) else none
    by_cases hp : parentId = 0
    · subst hp
      rw [if_neg (by simp)]
      unfold encodeCreateCollectionRequest
      split_ifs <;> first | rfl | simp_all
    · rw [if_pos ⟨rfl, hp⟩]
      unfold encodeCreateCollectionRequest
      split_ifs <;> rfl

/-- Claim C2: the claim states that a failure of the title scrape never
fails the overall `CreateSimpleRaindrop` operation; in fact, when the
plain GET of the link itself fails, `http.Get` returns a nil response
(its error is discarded) and the immediate `resp.Body` dereference
panics, so the operation dies instead of substituting the placeholder.
This theorem evaluates the embedded scrape at that failing input. -/
theorem createSimpleRaindrop_getFailure_panics :
    simpleRaindropTitle (none : Option Unit) (fun _ => none) = TitleScrape.panicked := rfl

/-- Claim C3, counterexample: on an accepted status (200 expected, 200
observed) with a body-read failure, `parseResponse` does not return an
error to the caller at all — it hits `panic(err)` (the `panicked`
outcome), which is neither the status-mismatch error nor the decode
error nor a success. -/
theorem parseResponse_readFailure_counterexample :
    parseResponse ⟨200, none⟩ 200 (fun _ => some (0 : Nat)) = ParseResult.panicked ∧
    (∀ code : Nat, (ParseResult.panicked : ParseResult Nat) ≠ ParseResult.statusError code) ∧
    (ParseResult.panicked : ParseResult Nat) ≠ ParseResult.decodeError := by
  refine ⟨rfl, ?_, ?_⟩ <;> simp

/-- Claim C3, amended: for a response whose status is accepted (equal to
the expected code or 400), a malformed-JSON body is reported to the
caller as a hard failure distinct from a status-mismatch error, but a
failure to read the response body is not reported as a returned error:
it raises a panic. -/
theorem parseResponse_decode_distinct {α : Type} (response : HTTPResponse)
    (expectedStatus : Nat) (unmarshal : String → Option α)
    (h : response.statusCode = expectedStatus ∨ response.statusCode = 400) :
    (response.bodyRead = none → parseResponse response expectedStatus unmarshal = ParseResult.panicked) ∧
    (∀ body, response.bodyRead = some body → unmarshal body = none →
      parseResponse response expectedStatus unmarshal = ParseResult.decodeError) ∧
    (∀ code, (ParseResult.decodeError : ParseResult α) ≠ ParseResult.statusError code) := by
  have hc : ¬ (response.statusCode ≠ expectedStatus ∧ response.statusCode ≠ 400) := by
    rcases h with h | h <;> simp [h]
  refine ⟨?_, ?_, ?_⟩
  · intro hb
    simp [parseResponse, hc, hb]
  · intro body hb hu
    simp [parseResponse, hc, hb, hu]
  · intro code
    simp

/-- Witness for C3 amended: a 400 response with an unparseable body is
reported as the decode error. -/
theorem parseResponse_decode_distinct_witness :
    parseResponse ⟨400, some "not json"⟩ 200 (fun _ => (none : Option Nat)) =
      ParseResult.decodeError :=
  (parseResponse_decode_distinct ⟨400, some "not json"⟩ 200 (fun _ => (none : Option Nat))
    (Or.inr rfl)).2.1 "not json" rfl rfl

/-- Claim C4: the claim states that the client configuration is never
mutated by any operation, `GetAuthorizationURL` included; in fact
`GetAuthorizationURL` copies the `authURL` *pointer* (not the value, as
every other method does) and assigns the joined authorization URI to its
`Path` through that pointer, mutating the URL stored in the client.
This theorem evaluates the embedded method on a freshly constructed
client and observes the changed configuration. -/
theorem getAuthorizationURL_mutates_client :
    (GetAuthorizationURL (NewClient "cid" "secret" "cb-uri")).2 ≠
      NewClient "cid" "secret" "cb-uri" := by decide

/-- Claim C5: the claim states that when both the `code` and `error`
query parameters are empty, extraction fails carrying the HTTP status of
the redirect request; in fact the code reads `r.Response.StatusCode`,
and on an inbound (server-side) request `Response` is nil, so the
extraction panics instead of returning an error. -/
theorem getAuthorizationCode_bothEmpty_panics :
    GetAuthorizationCode ⟨"", "", none⟩ = AuthCodeResult.panicked := rfl

/-- Claim C6: for every response whose status code is neither the
expected value nor 400, `parseResponse` returns the status-mismatch
error carrying the observed code, whatever the body and whatever the
decoder — in particular no decode is attempted. -/
theorem parseResponse_status_mismatch {α : Type} (response : HTTPResponse)
    (expectedStatus : Nat) (unmarshal : String → Option α)
    (h1 : response.statusCode ≠ expectedStatus) (h2 : response.statusCode ≠ 400) :
    parseResponse response expectedStatus unmarshal =
      ParseResult.statusError response.statusCode := by
  simp [parseResponse, h1, h2]

/-- Witness for C6: a 500 response against expected 200 yields the
status-mismatch error even though the decoder would have succeeded. -/
theorem parseResponse_status_mismatch_witness :
    parseResponse ⟨500, some "body"⟩ 200 (fun _ => some (0 : Nat)) =
      ParseResult.statusError 500 :=
  parseResponse_status_mismatch ⟨500, some "body"⟩ 200 (fun _ => some (0 : Nat))
    (by decide) (by decide)

/-- Claim C7: every request built by `newRequest` carries the header
`Content-Type: application/json`, and carries
`Authorization: Bearer <token>` exactly when the supplied token is
non-empty (no `Authorization` header of any value is present for an
empty token). -/
theorem newRequest_headers (accessToken httpMethod : String) (fullUrl : URL)
    (body : BodyArg) (req : Request)
    (h : newRequest accessToken httpMethod fullUrl body = some req) :
    ("Content-Type", "application/json") ∈ req.headers ∧
    (accessToken ≠ "" → ("Authorization", "Bearer " ++ accessToken) ∈ req.headers) ∧
    (accessToken = "" → ∀ value, ("Authorization", value) ∉ req.headers) := by
  unfold newRequest at h
  cases hq : queryUnescape (URL.render fullUrl) with
  | none => rw [hq] at h; exact absurd h (by simp)
  | some u =>
    rw [hq] at h
    by_cases ha : accessToken = ""
    · cases body with
      | nil =>
        simp only [ha, ne_eq, not_true_eq_false, if_false, Option.some.injEq] at h
        subst h
        refine ⟨by simp, by simp [ha], ?_⟩
        intro _ value hmem
        simp only [List.mem_singleton, Prod.mk.injEq] at hmem
        exact absurd hmem.1 (by decide)
      | encodes enc =>
        simp only [ha, ne_eq, not_true_eq_false, if_false, Option.some.injEq] at h
        subst h
        refine ⟨by simp, by simp [ha], ?_⟩
        intro _ value hmem
        simp only [List.mem_singleton, Prod.mk.injEq] at hmem
        exact absurd hmem.1 (by decide)
      | failsToEncode => exact absurd h (by simp)
    · cases body with
      | nil =>
        simp only [ha, ne_eq, not_false_eq_true, if_true, Option.some.injEq] at h
        subst h
        exact ⟨by simp, fun _ => by simp, fun hc => absurd hc ha⟩
      | encodes enc =>
        simp only [ha, ne_eq, not_false_eq_true, if_true, Option.some.injEq] at h
        subst h
        exact ⟨by simp, fun _ => by simp, fun hc => absurd hc ha⟩
      | failsToEncode => exact absurd h (by simp)

/-- Witness for C7: a GET of the tags endpoint with token `tok` carries
both headers. -/
theorem newRequest_headers_witness :
    ("Content-Type", "application/json") ∈
      (Request.mk "GET" "https://api.raindrop.io/rest/v1/tags" ""
        [("Content-Type", "application/json"), ("Authorization", "Bearer tok")]).headers ∧
    ("Authorization", "Bearer tok") ∈
      (Request.mk "GET" "https://api.raindrop.io/rest/v1/tags" ""
        [("Content-Type", "application/json"), ("Authorization", "Bearer tok")]).headers := by
  have h := newRequest_headers "tok" "GET" ⟨"https", "api.raindrop.io", "/rest/v1/tags"⟩
    BodyArg.nil
    (Request.mk "GET" "https://api.raindrop.io/rest/v1/tags" ""
      [("Content-Type", "application/json"), ("Authorization", "Bearer tok")])
    rfl
  exact ⟨h.1, h.2.1 (by decide)⟩

/-- Claim C8: on an accepted status (the expected code or 400), a body
that decodes to an envelope with `Result = false` and a non-empty
`ErrorMessage` is returned to the caller as the ordinary decoded record
— the very record the decoder produced, error message included — and not
as a returned error. -/
theorem parseResponse_resultFalse_preserved (response : HTTPResponse)
    (expectedStatus : Nat) (unmarshal : String → Option CreateCollectionResponse)
    (body : String) (v : CreateCollectionResponse)
    (hs : response.statusCode = expectedStatus ∨ response.statusCode = 400)
    (hb : response.bodyRead = some body) (hu : unmarshal body = some v)
    (hr : v.Result = false) (he : v.ErrorMessage ≠ "") :
    parseResponse response expectedStatus unmarshal = ParseResult.ok v := by
  have hc : ¬ (response.statusCode ≠ expectedStatus ∧ response.statusCode ≠ 400) := by
    rcases hs with h | h <;> simp [h]
  simp [parseResponse, hc, hb, hu]

/-- Witness for C8: a 400 response decoding to a `result:false` envelope
with message `Incorrect redirect_uri` is returned as that record. -/
theorem parseResponse_resultFalse_preserved_witness :
    parseResponse ⟨400, some "envelope"⟩ 200
      (fun _ => (some ⟨false, ⟨"", "", 0, false, 0, []⟩, "", "Incorrect redirect_uri"⟩ :
        Option CreateCollectionResponse)) =
      ParseResult.ok (⟨false, ⟨"", "", 0, false, 0, []⟩, "", "Incorrect redirect_uri"⟩ :
        CreateCollectionResponse) :=
  parseResponse_resultFalse_preserved ⟨400, some "envelope"⟩ 200
    (fun _ => (some ⟨false, ⟨"", "", 0, false, 0, []⟩, "", "Incorrect redirect_uri"⟩ :
      Option CreateCollectionResponse))
    "envelope" ⟨false, ⟨"", "", 0, false, 0, []⟩, "", "Incorrect redirect_uri"⟩
    (Or.inr rfl) rfl rfl rfl (by decide)

/-- Claim C9: for the tag `recipe` (and any client configuration),
`GetTaggedRaindrops` builds its request against the path
`/rest/v1/raindrops/0` with the single query parameter
`search=[\x7b"key":"tag","val":"recipe"\x7d]`. -/
theorem getTaggedRaindrops_recipe (clientId clientSecret redirectUri : String) :
    GetTaggedRaindropsRequest (NewClient clientId clientSecret redirectUri) "recipe" =
      ("/rest/v1/raindrops/0",
       [("search", "[\x7b\"key\":\"tag\",\"val\":\"recipe\"\x7d]")]) := rfl

/-- Claim C10: whenever the response status is accepted (200 or 400) and
the body decodes, `DeleteTags` returns no error — whatever record the
decoder produced, its `Result` flag included, is discarded, so an
application-level `result:false` is indistinguishable from success for
the caller. -/
theorem deleteTags_discards_result (response : HTTPResponse)
    (unmarshal : String → Option DeleteTagsResponse) (body : String)
    (v : DeleteTagsResponse)
    (hs : response.statusCode = 200 ∨ response.statusCode = 400)
    (hb : response.bodyRead = some body) (hu : unmarshal body = some v) :
    DeleteTags response unmarshal = DeleteTagsReturn.noError := by
  have hc : ¬ (response.statusCode ≠ 200 ∧ response.statusCode ≠ 400) := by
    rcases hs with h | h <;> simp [h]
  simp [DeleteTags, parseResponse, hc, hb, hu]

/-- Witness for C10: a 200 response whose body decodes to
`result:false` still makes `DeleteTags` return no error. -/
theorem deleteTags_discards_result_witness :
    DeleteTags ⟨200, some "envelope"⟩ (fun _ => some ⟨false⟩) =
      DeleteTagsReturn.noError :=
  deleteTags_discards_result ⟨200, some "envelope"⟩ (fun _ => some ⟨false⟩)
    "envelope" ⟨false⟩ (Or.inl rfl) rfl rfl

end Raindrop
